import Mathlib

/-!
Verification of the Optimization Lifecycle Engine of the lookatthatmongo
repository against its natural-language specification.

The embedding translates the Go sources:
  * `mongodb/optimizer/types.go`  (MongoOptimizer: Apply / Validate / Rollback,
    applyIndexOptimization, checkCollectionExists, verifyIndexExists,
    validateStep),
  * `mongodb/optimizer` error values (OptimizerError, ErrorType),
  * `mongodb/tracker` action handling (ProcessMeasurement decision block,
    ExecuteAction),
  * `cmd/multi.go` (bounded worker pool),
  * the `ai` package data model (OptimizationSuggestion and friends).

Go `float64` values are modelled by `GoFloat`: rationals extended with the
IEEE-754 special values NaN / +Inf / -Inf, with exact (unrounded) arithmetic.
All data originating from JSON decoding is finite; the special values arise
only from arithmetic (0/0 in the validation-improvement mean).

The MongoDB server is an external collaborator (the native command executor
of spec section 6).  It is modelled by `runCommand` over an explicit database
state: `createIndexes` adds an index (auto-creating the collection, resolving
an omitted index name from the key specification the way the server does) and
fails on a name conflict with a different specification; `dropIndexes` removes
the named index and fails when the collection or the index does not exist.
-/

/-- GoFloat models a Go float64: a rational number or an IEEE special value.
Arithmetic is exact (no rounding); only the special-value propagation of
IEEE-754 is modelled, which is what the claims depend on. -/
inductive GoFloat where
  | nan : GoFloat
  | inf : GoFloat
  | neginf : GoFloat
  | fin (q : ℚ) : GoFloat
deriving DecidableEq, Repr

/-- Negation of a GoFloat. -/
def GoFloat.neg : GoFloat → GoFloat
  | .nan => .nan
  | .inf => .neginf
  | .neginf => .inf
  | .fin q => .fin (-q)

/-- Addition with IEEE special-value propagation. -/
def GoFloat.add : GoFloat → GoFloat → GoFloat
  | .nan, _ => .nan
  | _, .nan => .nan
  | .inf, .neginf => .nan
  | .neginf, .inf => .nan
  | .inf, _ => .inf
  | _, .inf => .inf
  | .neginf, _ => .neginf
  | _, .neginf => .neginf
  | .fin a, .fin b => .fin (a + b)

/-- Subtraction, defined as in IEEE: a - b = a + (-b). -/
def GoFloat.sub (a b : GoFloat) : GoFloat := a.add b.neg

/-- Multiplication with IEEE special-value propagation. -/
def GoFloat.mul : GoFloat → GoFloat → GoFloat
  | .nan, _ => .nan
  | _, .nan => .nan
  | .fin a, .fin b => .fin (a * b)
  | .inf, .inf => .inf
  | .inf, .neginf => .neginf
  | .neginf, .inf => .neginf
  | .neginf, .neginf => .inf
  | .inf, .fin b => if b = 0 then .nan else if 0 < b then .inf else .neginf
  | .fin a, .inf => if a = 0 then .nan else if 0 < a then .inf else .neginf
  | .neginf, .fin b => if b = 0 then .nan else if 0 < b then .neginf else .inf
  | .fin a, .neginf => if a = 0 then .nan else if 0 < a then .neginf else .inf

/-- Division with IEEE special-value propagation; 0/0 is NaN, x/0 for x
nonzero is a signed infinity.  (Signed zeros are not modelled; they are
unreachable in the embedded code.) -/
def GoFloat.div : GoFloat → GoFloat → GoFloat
  | .nan, _ => .nan
  | _, .nan => .nan
  | .fin a, .fin b =>
      if b = 0 then (if a = 0 then .nan else if 0 < a then .inf else .neginf)
      else .fin (a / b)
  | .fin _, .inf => .fin 0
  | .fin _, .neginf => .fin 0
  | .inf, .fin b => if 0 ≤ b then .inf else .neginf
  | .neginf, .fin b => if 0 ≤ b then .neginf else .inf
  | .inf, .inf => .nan
  | .inf, .neginf => .nan
  | .neginf, .inf => .nan
  | .neginf, .neginf => .nan

/-- Strict less-than of Go float64 values: comparisons with NaN are false. -/
def GoFloat.blt : GoFloat → GoFloat → Bool
  | .nan, _ => false
  | _, .nan => false
  | .neginf, .neginf => false
  | .neginf, _ => true
  | _, .neginf => false
  | .inf, .inf => false
  | _, .inf => true
  | .inf, _ => false
  | .fin a, .fin b => decide (a < b)

/-! ## Data model of the `ai` package (`ai/types.go`) -/

/-- Metric mirrors `ai.Metric`: a named measurement.  The float64 `Value` and
`Threshold` come from JSON and are therefore finite, so they are rationals. -/
structure AIMetric where
  name : String
  value : ℚ
  unit : String
  threshold : ℚ
deriving DecidableEq, Repr

/-- IndexOptions mirrors `ai.IndexOptions`; an empty `name` means unset, as
in the Go zero value. -/
structure IndexOptions where
  name : String
  unique : Bool
  sparse : Bool
  expireAfterSeconds : Option Int
deriving DecidableEq, Repr

/-- IndexOperation mirrors `ai.IndexOperation`.  The Go `Keys` field is a
`map[string]int`; it is modelled as an ordered field-to-direction list (the
spec data model calls it an ordered mapping). -/
structure IndexOperation where
  action : String
  collection : String
  keys : List (String × Int)
  name : String
  options : IndexOptions
deriving DecidableEq, Repr

/-- Problem mirrors `ai.Problem` (fields not used by the engine are kept for
fidelity). -/
structure Problem where
  description : String
  metrics : List AIMetric
  firstSeen : String
  severity : String
deriving DecidableEq, Repr

/-- Solution mirrors `ai.Solution` (the optional resources and implementation
details carry no behavior and are omitted). -/
structure Solution where
  description : String
  operations : List IndexOperation
deriving DecidableEq, Repr

/-- OptimizationSuggestion mirrors `ai.OptimizationSuggestion`. -/
structure OptimizationSuggestion where
  category : String
  impact : String
  confidence : ℚ
  problem : Problem
  solution : Solution
  validation : List String
deriving DecidableEq, Repr

/-! ## MongoDB server state and the native command executor (spec section 6) -/

/-- IndexSpec is one index as held by the server: its name, key
specification and the recorded creation options. -/
structure IndexSpec where
  name : String
  keys : List (String × Int)
  unique : Bool
  sparse : Bool
  expireAfterSeconds : Option Int
deriving DecidableEq, Repr

/-- CollectionState is one collection and its indexes. -/
structure CollectionState where
  name : String
  indexes : List IndexSpec
deriving DecidableEq, Repr

/-- DbState is the state of the one target database all embedded commands
address (`conn.Database(databaseName)` in the source). -/
structure DbState where
  collections : List CollectionState
deriving DecidableEq, Repr

/-- IndexDoc is the index document inside a `createIndexes` command: the
`key` field, the optional `name` field, and the options that the source
appends (`unique`, `sparse`, `expireAfterSeconds`). -/
structure IndexDoc where
  keys : List (String × Int)
  name : Option String
  unique : Bool
  sparse : Bool
  expireAfterSeconds : Option Int
deriving DecidableEq, Repr

/-- Cmd is a native administrative command sent through `RunCommand`. -/
inductive Cmd where
  | createIndexes (collection : String) (doc : IndexDoc)
  | dropIndexes (collection : String) (index : String)
deriving DecidableEq, Repr

/-- findColl looks a collection up by name (first match, as the server's
namespace lookup; collection names are unique on a real server). -/
def DbState.findColl (st : DbState) (c : String) : Option CollectionState :=
  st.collections.find? (fun cs => cs.name == c)

/-- updateFirstColl replaces the index list of the first collection with the
given name. -/
def updateFirstColl : List CollectionState → String → List IndexSpec → List CollectionState
  | [], _, _ => []
  | cs :: rest, c, ix =>
      if cs.name == c then { cs with indexes := ix } :: rest
      else cs :: updateFirstColl rest c ix

/-- genIndexName is the server-side default index name derived from the key
specification (for example `a_1` for an ascending index on field `a`). -/
def genIndexName (keys : List (String × Int)) : String :=
  String.intercalate "_" (keys.map (fun kv => kv.1 ++ "_" ++ toString kv.2))

/-- resolveDocName is the name the server gives an index created from a
document: the explicit `name` field, or the generated default. -/
def IndexDoc.resolveName (doc : IndexDoc) : String :=
  match doc.name with
  | some n => n
  | none => genIndexName doc.keys

/-- specOfDoc is the index the server stores for a `createIndexes` document. -/
def specOfDoc (doc : IndexDoc) : IndexSpec :=
  ⟨doc.resolveName, doc.keys, doc.unique, doc.sparse, doc.expireAfterSeconds⟩

/-- runCommand models the native command executor (spec section 6, the
MongoDB server): `createIndexes` auto-creates a missing collection, succeeds
as a no-op on an identical existing index, fails on a name conflict;
`dropIndexes` fails when the collection or the named index is missing. -/
def runCommand (st : DbState) : Cmd → Except String DbState
  | .createIndexes coll doc =>
      let spec := specOfDoc doc
      match st.findColl coll with
      | none => .ok ⟨st.collections ++ [⟨coll, [spec]⟩]⟩
      | some cs =>
          match cs.indexes.find? (fun i => i.name == spec.name) with
          | some existing =>
              if existing = spec then .ok st
              else .error "IndexOptionsConflict"
          | none => .ok ⟨updateFirstColl st.collections coll (cs.indexes ++ [spec])⟩
  | .dropIndexes coll n =>
      match st.findColl coll with
      | none => .error "ns not found"
      | some cs =>
          if cs.indexes.any (fun i => i.name == n) then
            .ok ⟨updateFirstColl st.collections coll (cs.indexes.filter (fun i => !(i.name == n)))⟩
          else .error "index not found"

/-- collExists mirrors `checkCollectionExists`: `ListCollectionNames` with a
name filter returns a non-empty list exactly when the collection exists. -/
def collExists (st : DbState) (c : String) : Bool :=
  (st.findColl c).isSome

/-- indexExists mirrors `verifyIndexExists`: list the collection's indexes
and look for one with the given name (an empty cursor - in particular a
missing collection - yields false). -/
def indexExists (st : DbState) (c : String) (n : String) : Bool :=
  match st.findColl c with
  | none => false
  | some cs => cs.indexes.any (fun i => i.name == n)

/-! ## Optimizer errors (`mongodb/optimizer` error definitions) -/

/-- ErrorType mirrors the optimizer `ErrorType` string constants. -/
inductive ErrorType where
  | connection
  | index
  | query
  | schema
  | config
  | validation
  | rollback
  | unknown
deriving DecidableEq, Repr

/-- OptError is a Go error returned by the optimizer: either a typed
`OptimizerError` (with its kind, message and optionally the attached
command) or a plain error built with `fmt.Errorf`. -/
inductive OptError where
  | optimizer (etype : ErrorType) (message : String) (command : Option Cmd)
  | plain (message : String)
deriving DecidableEq, Repr

/-- isOptimizerErrorOfKind mirrors the `IsConnectionError` / `IsIndexError` /
`IsRollbackError` helpers: a type assertion to `*OptimizerError` followed by
a kind comparison; a plain `fmt.Errorf` error is never of any kind. -/
def isOptimizerErrorOfKind (e : OptError) (t : ErrorType) : Bool :=
  match e with
  | .optimizer t' _ _ => t' == t
  | .plain _ => false

/-- message of an OptError (the `Error()` rendering, without formatting). -/
def OptError.msg : OptError → String
  | .optimizer _ m _ => m
  | .plain m => m

/-! ## MongoOptimizer.Apply for the index category
(`applyIndexOptimization`, `mongodb/optimizer/types.go` lines 263-387).

An execution step returns the database state after the step, the list of
native commands issued (in order, including a command whose execution
failed), and the error if any. -/

/-- StepResult is (state after, commands issued, error). -/
abbrev StepResult := DbState × List Cmd × Option OptError

/-- resolvedCheckName mirrors the `indexNameForCheck` computation: for
createIndex the operation name overridden by a non-empty options name, for
dropIndex the operation name, otherwise empty. -/
def resolvedCheckName (op : IndexOperation) : String :=
  if op.action == "createIndex" then
    if op.options.name ≠ "" then op.options.name else op.name
  else if op.action == "dropIndex" then op.name
  else ""

/-- collMissingMsg is the pre-apply validation message for a missing
collection (a plain `fmt.Errorf`, quoting elided). -/
def collMissingMsg (coll db : String) : String :=
  "pre-apply validation failed: collection " ++ coll ++ " does not exist in database " ++ db

/-- idxExistsMsg is the pre-apply validation message for createIndex hitting
an existing index name. -/
def idxExistsMsg (n coll : String) : String :=
  "pre-apply validation failed: index " ++ n ++ " already exists on collection " ++ coll

/-- idxMissingMsg is the pre-apply validation message for dropIndex naming a
missing index. -/
def idxMissingMsg (n coll : String) : String :=
  "pre-apply validation failed: index " ++ n ++ " does not exist on collection " ++ coll

/-- postVerify mirrors the post-apply verification block: when a name was
resolved, re-query index existence; createIndex must now find it and
dropIndex must not.  (The model's existence query cannot itself fail, so the
logged-and-tolerated query-error path is dead.) -/
def postVerify (st' : DbState) (op : IndexOperation) (verificationName : String)
    (c : Cmd) (db : String) : StepResult :=
  if verificationName ≠ "" then
    let foundAfter := indexExists st' op.collection verificationName
    if op.action == "createIndex" && !foundAfter then
      (st', [c], some (.plain ("index " ++ verificationName ++ " was not created successfully on "
        ++ db ++ "." ++ op.collection ++ " (verification failed)")))
    else if op.action == "dropIndex" && foundAfter then
      (st', [c], some (.plain ("index " ++ verificationName ++ " was not dropped successfully on "
        ++ db ++ "." ++ op.collection ++ " (verification failed)")))
    else (st', [c], none)
  else (st', [c], none)

/-- buildAndRun mirrors the command-build switch and the execution step of
the loop body. -/
def buildAndRun (db : String) (st : DbState) (op : IndexOperation)
    (nameForCheck : String) : StepResult :=
  if op.action == "createIndex" then
    if op.collection == "" || op.keys.isEmpty then
      (st, [], some (.plain "invalid createIndex operation parameters: missing collection or keys"))
    else
      let doc : IndexDoc :=
        ⟨op.keys, if nameForCheck ≠ "" then some nameForCheck else none,
          op.options.unique, op.options.sparse, op.options.expireAfterSeconds⟩
      let c := Cmd.createIndexes op.collection doc
      match runCommand st c with
      | .error m => (st, [c], some (.plain ("failed to apply index optimization (createIndex): " ++ m)))
      | .ok st' => postVerify st' op nameForCheck c db
  else if op.action == "dropIndex" then
    if op.collection == "" || nameForCheck == "" then
      (st, [], some (.plain "invalid dropIndex operation parameters: missing collection or index name"))
    else
      let c := Cmd.dropIndexes op.collection nameForCheck
      match runCommand st c with
      | .error m => (st, [c], some (.plain ("failed to apply index optimization (dropIndex): " ++ m)))
      | .ok st' => postVerify st' op nameForCheck c db
  else (st, [], some (.plain ("unsupported index action: " ++ op.action)))

/-- applyOneIndexOp is the body of the `applyIndexOptimization` loop for one
operation: collection existence pre-check, index-name pre-checks, command
construction, execution, post-apply verification. -/
def applyOneIndexOp (db : String) (st : DbState) (op : IndexOperation) : StepResult :=
  if collExists st op.collection = false then
    (st, [], some (.plain (collMissingMsg op.collection db)))
  else
    let nameForCheck := resolvedCheckName op
    if nameForCheck ≠ "" then
      if op.action == "createIndex" && indexExists st op.collection nameForCheck then
        (st, [], some (.plain (idxExistsMsg nameForCheck op.collection)))
      else if op.action == "dropIndex" && !(indexExists st op.collection nameForCheck) then
        (st, [], some (.plain (idxMissingMsg nameForCheck op.collection)))
      else buildAndRun db st op nameForCheck
    else if op.action == "dropIndex" then
      (st, [], some (.plain "pre-apply validation failed: index name is required for dropIndex"))
    else buildAndRun db st op nameForCheck

/-- applyIndexOps is the `applyIndexOptimization` loop: operations in list
order, stopping at the first error (the early return for an empty operation
list is the same no-command success as the empty loop). -/
def applyIndexOps (db : String) (st : DbState) : List IndexOperation → StepResult
  | [] => (st, [], none)
  | op :: rest =>
      match applyOneIndexOp db st op with
      | (st', cs, some e) => (st', cs, some e)
      | (st', cs, none) =>
          match applyIndexOps db st' rest with
          | (st'', cs', r) => (st'', cs ++ cs', r)

/-- mongoApply mirrors `MongoOptimizer.Apply`: dispatch on the suggestion
category; query/schema/configuration are accepted but return a
not-implemented error without issuing commands; an unknown category is a
typed OptimizerError of kind unknown.  (The nil-connection guard is outside
the model: the model always has a connection.) -/
def mongoApply (db : String) (st : DbState) (sug : OptimizationSuggestion) : StepResult :=
  if sug.category == "index" then applyIndexOps db st sug.solution.operations
  else if sug.category == "query" then (st, [], some (.plain "query optimization not implemented"))
  else if sug.category == "schema" then (st, [], some (.plain "schema optimization not implemented"))
  else if sug.category == "configuration" then
    (st, [], some (.plain "config optimization not implemented"))
  else
    (st, [], some (.optimizer .unknown ("Unknown optimization category: " ++ sug.category) none))

/-! ## MongoOptimizer.Validate
(`mongodb/optimizer/types.go` lines 131-174, with the `validateStep` stub of
lines 453-459). -/

/-- VMetric mirrors `optimizer.Metric`: a before/after pair with unit and
threshold. -/
structure VMetric where
  before : ℚ
  after : ℚ
  unit : String
  threshold : ℚ
deriving DecidableEq, Repr

/-- ValidationResult mirrors `optimizer.ValidationResult`; the Go metrics map
is an association list keyed by metric name whose length is the number of
distinct keys. -/
structure ValidationResult where
  category : String
  success : Bool
  improvement : GoFloat
  metrics : List (String × VMetric)
deriving DecidableEq, Repr

/-- validateStep mirrors the source stub: it returns the placeholder metric
named after the step with value 0.0 and a nil error, so the error path of
Validate is unreachable and the embedding is total. -/
def validateStep (step : String) : AIMetric := ⟨step, 0, "", 0⟩

/-- findProblemMetric mirrors the linear scan with break over the problem
metrics: the first metric whose name matches. -/
def findProblemMetric (ms : List AIMetric) (n : String) : Option AIMetric :=
  ms.find? (fun m => m.name == n)

/-- mapInsert is a Go map store `m[k] = v`: replace the value if the key is
present, otherwise add the key. -/
def mapInsert (ms : List (String × VMetric)) (k : String) (v : VMetric) :
    List (String × VMetric) :=
  if ms.any (fun kv => kv.1 == k) then
    ms.map (fun kv => if kv.1 == k then (k, v) else kv)
  else ms ++ [(k, v)]

/-- stepImprovement is the per-step improvement percentage
`((problemMetric.Value - metric.Value) / problemMetric.Value) * 100`
computed in float64 arithmetic. -/
def stepImprovement (pm : AIMetric) (m : AIMetric) : GoFloat :=
  (((GoFloat.fin pm.value).sub (GoFloat.fin m.value)).div (GoFloat.fin pm.value)).mul
    (GoFloat.fin 100)

/-- validateLoop is the Validate loop over the suggestion's validation steps,
accumulating the improvement total and the metrics map. -/
def validateLoop (pms : List AIMetric) :
    List String → GoFloat → List (String × VMetric) → GoFloat × List (String × VMetric)
  | [], total, ms => (total, ms)
  | step :: rest, total, ms =>
      let metric := validateStep step
      match findProblemMetric pms metric.name with
      | none => validateLoop pms rest total ms
      | some pm =>
          validateLoop pms rest (total.add (stepImprovement pm metric))
            (mapInsert ms metric.name ⟨pm.value, metric.value, metric.unit, metric.threshold⟩)

/-- mongoValidate mirrors `MongoOptimizer.Validate`: run the loop, then
divide the total by the number of map entries (0/0 is a float64 NaN) and set
success to `improvement > 0`. -/
def mongoValidate (sug : OptimizationSuggestion) : ValidationResult :=
  let r := validateLoop sug.problem.metrics sug.validation (GoFloat.fin 0) []
  let improvement := r.1.div (GoFloat.fin r.2.length)
  ⟨sug.category, GoFloat.blt (GoFloat.fin 0) improvement, improvement, r.2⟩

/-! ## MongoOptimizer.Rollback
(`mongodb/optimizer/types.go` lines 177-261). -/

/-- InvertResult is the outcome of inverting one operation inside the
Rollback loop: an inverted command, a typed rollback error, or a skip
(`continue`) for an unsupported action. -/
inductive InvertResult where
  | cmd (c : Cmd)
  | failed (e : OptError)
  | skip
deriving DecidableEq, Repr

/-- rollbackDropName is the name used to invert createIndex: the operation
name, overridden by a non-empty options name. -/
def rollbackDropName (op : IndexOperation) : String :=
  if op.options.name ≠ "" then op.options.name else op.name

/-- invertOp mirrors the Rollback switch: createIndex inverts to dropIndexes
with the resolved name, dropIndex inverts to createIndexes reconstructing
the key specification and the recorded unique / sparse / expireAfterSeconds
options (and the name when non-empty); missing data is a typed rollback
error, and any other action is skipped. -/
def invertOp (op : IndexOperation) : InvertResult :=
  if op.action == "createIndex" then
    let indexNameToDrop := rollbackDropName op
    if op.collection == "" || indexNameToDrop == "" then
      .failed (.optimizer .rollback
        "Cannot determine rollback for createIndex: missing collection or index name" none)
    else .cmd (.dropIndexes op.collection indexNameToDrop)
  else if op.action == "dropIndex" then
    if op.collection == "" || op.keys.isEmpty then
      .failed (.optimizer .rollback
        "Cannot determine rollback for dropIndex: missing collection or keys" none)
    else
      .cmd (.createIndexes op.collection
        ⟨op.keys, if op.name ≠ "" then some op.name else none,
          op.options.unique, op.options.sparse, op.options.expireAfterSeconds⟩)
  else .skip

/-- rollbackOps is the Rollback loop in forward list order: invert each
operation, execute the inverted command, and stop at the first failure with
a typed rollback error carrying the failing command. -/
def rollbackOps (st : DbState) : List IndexOperation → StepResult
  | [] => (st, [], none)
  | op :: rest =>
      match invertOp op with
      | .skip => rollbackOps st rest
      | .failed e => (st, [], some e)
      | .cmd c =>
          match runCommand st c with
          | .error _ =>
              (st, [c], some (.optimizer .rollback "Failed to execute rollback command" (some c)))
          | .ok st' =>
              match rollbackOps st' rest with
              | (st'', cs, r) => (st'', c :: cs, r)

/-- mongoRollback mirrors `MongoOptimizer.Rollback` for a non-nil suggestion
with a live connection: an empty operation list is a success without native
calls, otherwise the forward loop runs. -/
def mongoRollback (st : DbState) (sug : OptimizationSuggestion) : StepResult :=
  if sug.solution.operations.isEmpty then (st, [], none)
  else rollbackOps st sug.solution.operations

/-! ## Action policy (`mongodb/tracker` ActionHandler) -/

/-- determineActionType is the decision block of
`ActionHandler.ProcessMeasurement` (conn.go view lines 481-493): Go
`ActionType` is a string type, so actions are strings. -/
def determineActionType (improvement : ℚ) (threshold : ℚ) (category : String) : String :=
  if improvement < 0 then "rollback"
  else if improvement < threshold then "alert"
  else if category == "optimize" then "optimize"
  else "none"

/-- ActionResult mirrors `tracker.ActionResult` without the wall-clock
timestamp field. -/
structure ActionResult where
  type : String
  success : Bool
  description : String
deriving DecidableEq, Repr

/-- HandlerEnv models the collaborators an ActionHandler holds when
`ExecuteAction` runs: whether an optimizer is configured and, when it is
invoked, whether its Rollback / Apply call returns an error (the error
rendering as a string).  Storage only logs failures and never changes the
result, so it needs no model. -/
structure HandlerEnv where
  threshold : ℚ
  hasOptimizer : Bool
  rollbackErr : Option String
  applyErr : Option String
deriving DecidableEq, Repr

/-- executeAction mirrors `ActionHandler.ExecuteAction`: the switch over the
action type with the default branch normalizing the type to "unknown".
Descriptions follow the source formats with numeric formatting elided. -/
def executeAction (h : HandlerEnv) (actionType : String)
    (_sug : OptimizationSuggestion) (_improvement : ℚ) : ActionResult :=
  if actionType == "none" then
    ⟨actionType, true, "No action required"⟩
  else if actionType == "alert" then
    ⟨actionType, true, "Alert sent: Optimization improvement below threshold"⟩
  else if actionType == "rollback" then
    if h.hasOptimizer then
      match h.rollbackErr with
      | some e => ⟨actionType, false, "Rollback failed: " ++ e⟩
      | none => ⟨actionType, true, "Rollback completed successfully due to performance degradation"⟩
    else ⟨actionType, false, "Rollback required but optimizer not available"⟩
  else if actionType == "optimize" then
    if h.hasOptimizer then
      match h.applyErr with
      | some e => ⟨actionType, false, "Additional optimization failed: " ++ e⟩
      | none => ⟨actionType, true, "Additional optimization applied successfully"⟩
    else ⟨actionType, false, "Additional optimization required but optimizer not available"⟩
  else
    ⟨"unknown", false, "Unknown action type: " ++ actionType⟩

/-! ## Bounded worker pool (`cmd/multi.go` lines 94-152)

The multi command admits one worker per database through a buffered channel
of capacity M used as a counting semaphore (`sem <- struct{}{}` before the
goroutine starts, `<-sem` released on completion) and collects one result
per worker over a channel.  The pool is modelled as a transition system over
the counts of pending, admitted-and-running, and completed workers; every
interleaving of admissions and completions is a path of the system. -/

/-- PoolState counts databases not yet admitted, workers currently holding a
semaphore slot, and the per-database results already emitted (the success
flag of each). -/
structure PoolState where
  pending : Nat
  active : Nat
  results : List Bool
deriving DecidableEq, Repr

/-- PoolStep M is one scheduler step: admit a pending worker when a
semaphore slot is free, or complete an active worker (successfully or not),
releasing its slot and emitting its result. -/
inductive PoolStep (M : Nat) : PoolState → PoolState → Prop
  | acquire {s : PoolState} (hslot : s.active < M) (hpend : 0 < s.pending) :
      PoolStep M s ⟨s.pending - 1, s.active + 1, s.results⟩
  | finish {s : PoolState} (ok : Bool) (hact : 0 < s.active) :
      PoolStep M s ⟨s.pending, s.active - 1, ok :: s.results⟩

/-- PoolReach M is the reflexive-transitive closure of PoolStep: the states
a run of the pool can be in. -/
inductive PoolReach (M : Nat) : PoolState → PoolState → Prop
  | refl (s : PoolState) : PoolReach M s s
  | tail {s t u : PoolState} : PoolReach M s t → PoolStep M t u → PoolReach M s u

/-- initPool N is the pool state before any admission: N databases pending. -/
def initPool (N : Nat) : PoolState := ⟨N, 0, []⟩

/-- sugEmpty is a minimal concrete suggestion for witnesses. -/
def sugEmpty : OptimizationSuggestion :=
  ⟨"index", "low", 1, ⟨"", [], "", ""⟩, ⟨"", []⟩, []⟩

/-! ## Claim C2: spec-side definitions and Validate characterization -/

/-- perStepValue is the per-step improvement the claim describes:
`(before - after) / before * 100` for the problem metric matching the step's
output name, 0 for an unmatched step. -/
def perStepValue (pms : List AIMetric) (s : String) : GoFloat :=
  match findProblemMetric pms (validateStep s).name with
  | some pm => stepImprovement pm (validateStep s)
  | none => GoFloat.fin 0

/-- specMatchedSteps formalizes the claim's words: the validation steps
whose output name appears among the suggestion's problem metrics (metrics
present on only one side are excluded). -/
def specMatchedSteps (sug : OptimizationSuggestion) : List String :=
  sug.validation.filter
    (fun s => (findProblemMetric sug.problem.metrics (validateStep s).name).isSome)

/-- specMeanImprovement formalizes the claim's improvement: the arithmetic
mean of the per-metric value over exactly the matched metrics. -/
def specMeanImprovement (sug : OptimizationSuggestion) : GoFloat :=
  ((specMatchedSteps sug).foldl
      (fun acc s => acc.add (perStepValue sug.problem.metrics s)) (GoFloat.fin 0)).div
    (GoFloat.fin (specMatchedSteps sug).length)

/-- c2sug is the duplicate-step counterexample suggestion: two identical
validation steps matching the single problem metric m with before-value
10. -/
def c2sug : OptimizationSuggestion :=
  ⟨"index", "high", 1, ⟨"", [⟨"m", 10, "", 0⟩], "", ""⟩, ⟨"", []⟩, ["m", "m"]⟩

/-- c2wsug is a duplicate-free witness suggestion: one matched step and one
unmatched step over two problem metrics. -/
def c2wsug : OptimizationSuggestion :=
  ⟨"index", "high", 1, ⟨"", [⟨"m", 10, "", 0⟩, ⟨"k", 5, "", 0⟩], "", ""⟩,
    ⟨"", []⟩, ["m", "nomatch"]⟩

/-- c3cst, c3cop, c3csug: the concrete counterexample input for C3 - an
index suggestion whose only operation targets the non-existent collection
ghost in an empty database. -/
def c3cst : DbState := ⟨[]⟩

/-- Counterexample operation for C3. -/
def c3cop : IndexOperation := ⟨"createIndex", "ghost", [("a", 1)], "idx_a", ⟨"", false, false, none⟩⟩

/-- Counterexample suggestion for C3. -/
def c3csug : OptimizationSuggestion :=
  ⟨"index", "high", 1, ⟨"", [], "", ""⟩, ⟨"", [c3cop]⟩, []⟩

/-- c3wst is the witness database (one collection inventory) for C3. -/
def c3wst : DbState := ⟨[⟨"inventory", []⟩]⟩

/-- Witness operation for C3: targets the missing collection absent. -/
def c3wop : IndexOperation := ⟨"createIndex", "absent", [("b", 1)], "idx_b", ⟨"", false, false, none⟩⟩

/-- Witness suggestion for C3. -/
def c3wsug : OptimizationSuggestion :=
  ⟨"index", "high", 1, ⟨"", [], "", ""⟩, ⟨"", [c3wop]⟩, []⟩

/-- c4wst is the witness database for C4: collection events already has an
index named idx_e. -/
def c4wst : DbState := ⟨[⟨"events", [⟨"idx_e", [("e", 1)], false, false, none⟩]⟩]⟩

/-- Witness operation for C4: a createIndex whose resolved name idx_e
already exists. -/
def c4wop : IndexOperation := ⟨"createIndex", "events", [("e", 1)], "idx_e", ⟨"", false, false, none⟩⟩

/-- c6wst is the witness database for C6: collection metrics with the two
indexes idx1 and (not) idx2. -/
def c6wst : DbState := ⟨[⟨"metrics", [⟨"idx1", [("a", 1)], false, false, none⟩]⟩]⟩

/-- First witness operation for C6: createIndex idx1 (its rollback, the
dropIndexes of idx1, succeeds). -/
def c6wop1 : IndexOperation := ⟨"createIndex", "metrics", [("a", 1)], "idx1", ⟨"", false, false, none⟩⟩

/-- Second witness operation for C6: createIndex idx2 (its rollback fails -
idx2 does not exist). -/
def c6wop2 : IndexOperation := ⟨"createIndex", "metrics", [("b", 1)], "idx2", ⟨"", false, false, none⟩⟩

/-- Witness suggestion for C6. -/
def c6wsug : OptimizationSuggestion :=
  ⟨"index", "high", 1, ⟨"", [], "", ""⟩, ⟨"", [c6wop1, c6wop2]⟩, []⟩

/-- Witness suggestion for C10: two unsupported operations. -/
def c10wsug : OptimizationSuggestion :=
  ⟨"index", "low", 1, ⟨"", [], "", ""⟩,
    ⟨"", [⟨"collMod", "users", [], "", ⟨"", false, false, none⟩⟩,
      ⟨"reIndex", "users", [], "", ⟨"", false, false, none⟩⟩]⟩, []⟩

/-- singleOpSuggestion wraps one index operation in an index-category
suggestion, as in the round-trip claim. -/
def singleOpSuggestion (op : IndexOperation) : OptimizationSuggestion :=
  ⟨"index", "high", 1, ⟨"", [], "", ""⟩, ⟨"", [op]⟩, []⟩

/-- c5cst is the counterexample database for C5: collection users with no
indexes. -/
def c5cst : DbState := ⟨[⟨"users", []⟩]⟩

/-- c5cop is the C5 counterexample operation: a createIndex with valid keys
but no name anywhere, so the server auto-names the index age_1. -/
def c5cop : IndexOperation := ⟨"createIndex", "users", [("age", 1)], "", ⟨"", false, false, none⟩⟩

/-- c5wst is the witness database for the amended C5. -/
def c5wst : DbState := ⟨[⟨"orders", [⟨"old_idx", [("o", 1)], false, false, none⟩]⟩]⟩

/-- c5wop is the witness operation: a named createIndex on orders. -/
def c5wop : IndexOperation :=
  ⟨"createIndex", "orders", [("total", -1)], "total_idx", ⟨"", true, false, none⟩⟩

/-! ## Shared helper lemmas -/

/-- Pool invariant: along any run, the worker counts sum to the initial
database count and the active count never exceeds the semaphore capacity. -/
theorem poolReach_invariant {M N : Nat} {t : PoolState}
    (h : PoolReach M (initPool N) t) :
    t.pending + t.active + t.results.length = N ∧ t.active ≤ M := by
  induction h with
  | refl => simp [initPool]
  | tail _ hstep ih =>
      cases hstep with
      | acquire hslot hpend =>
          dsimp only at ih ⊢
          omega
      | finish ok hact =>
          dsimp only at ih ⊢
          simp only [List.length_cons]
          omega

/-- poolRunExample is one concrete interleaved run of the pool with M = 2
and N = 5 ending with all workers finished (two admissions overlap, one
worker fails). -/
theorem poolRunExample :
    PoolReach 2 (initPool 5) ⟨0, 0, [true, true, false, true, true]⟩ := by
  have h0 : PoolReach 2 (initPool 5) (initPool 5) := .refl (initPool 5)
  have h1 : PoolReach 2 (initPool 5) ⟨4, 1, []⟩ :=
    .tail h0 (.acquire (by decide) (by decide))
  have h2 : PoolReach 2 (initPool 5) ⟨3, 2, []⟩ :=
    .tail h1 (.acquire (by decide) (by decide))
  have h3 : PoolReach 2 (initPool 5) ⟨3, 1, [true]⟩ :=
    .tail h2 (.finish true (by decide))
  have h4 : PoolReach 2 (initPool 5) ⟨3, 0, [true, true]⟩ :=
    .tail h3 (.finish true (by decide))
  have h5 : PoolReach 2 (initPool 5) ⟨2, 1, [true, true]⟩ :=
    .tail h4 (.acquire (by decide) (by decide))
  have h6 : PoolReach 2 (initPool 5) ⟨1, 2, [true, true]⟩ :=
    .tail h5 (.acquire (by decide) (by decide))
  have h7 : PoolReach 2 (initPool 5) ⟨1, 1, [false, true, true]⟩ :=
    .tail h6 (.finish false (by decide))
  have h8 : PoolReach 2 (initPool 5) ⟨0, 2, [false, true, true]⟩ :=
    .tail h7 (.acquire (by decide) (by decide))
  have h9 : PoolReach 2 (initPool 5) ⟨0, 1, [true, false, true, true]⟩ :=
    .tail h8 (.finish true (by decide))
  exact .tail h9 (.finish true (by decide))

/-! ## Claim theorems -/

/-- C1: the decision block of ProcessMeasurement is a pure function of the
measured improvement, the suggestion category and the configured threshold,
evaluated in the fixed order rollback / alert / optimize / none: a negative
improvement selects rollback; otherwise an improvement strictly below the
threshold selects alert; otherwise category "optimize" selects optimize;
otherwise the action is none. -/
theorem c1_action_selection (improvement threshold : ℚ) (category : String) :
    (improvement < 0 → determineActionType improvement threshold category = "rollback")
    ∧ (0 ≤ improvement → improvement < threshold →
        determineActionType improvement threshold category = "alert")
    ∧ (0 ≤ improvement → threshold ≤ improvement → category = "optimize" →
        determineActionType improvement threshold category = "optimize")
    ∧ (0 ≤ improvement → threshold ≤ improvement → category ≠ "optimize" →
        determineActionType improvement threshold category = "none") := by
  refine ⟨fun h => ?_, fun h0 ht => ?_, fun h0 ht hc => ?_, fun h0 ht hc => ?_⟩
  · simp [determineActionType, h]
  · simp [determineActionType, not_lt.mpr h0, ht]
  · simp [determineActionType, not_lt.mpr h0, not_lt.mpr ht, hc]
  · simp [determineActionType, not_lt.mpr h0, not_lt.mpr ht, hc]

/-- Witness for C1 at the four concrete inputs named by the spec. -/
theorem c1_action_selection_witness :
    determineActionType (-1) 5 "index" = "rollback"
    ∧ determineActionType 3 5 "index" = "alert"
    ∧ determineActionType 20 5 "optimize" = "optimize"
    ∧ determineActionType 20 5 "index" = "none" :=
  ⟨(c1_action_selection (-1) 5 "index").1 (by norm_num),
    (c1_action_selection 3 5 "index").2.1 (by norm_num) (by norm_num),
    (c1_action_selection 20 5 "optimize").2.2.1 (by norm_num) (by norm_num) rfl,
    (c1_action_selection 20 5 "index").2.2.2 (by norm_num) (by norm_num) (by decide)⟩

/-- C7: ExecuteAction on any action type other than none / alert / rollback
/ optimize produces a failed result whose description names the unrecognized
value and whose type is normalized to the "unknown" marker. -/
theorem c7_unknown_action_type (h : HandlerEnv) (t : String)
    (sug : OptimizationSuggestion) (improvement : ℚ)
    (h1 : t ≠ "none") (h2 : t ≠ "alert") (h3 : t ≠ "rollback") (h4 : t ≠ "optimize") :
    executeAction h t sug improvement =
      ⟨"unknown", false, "Unknown action type: " ++ t⟩ := by
  simp [executeAction, h1, h2, h3, h4]

/-- Witness for C7 at the concrete unrecognized action type "escalate". -/
theorem c7_unknown_action_type_witness :
    executeAction ⟨5, false, none, none⟩ "escalate" sugEmpty 0 =
      ⟨"unknown", false, "Unknown action type: escalate"⟩ :=
  c7_unknown_action_type ⟨5, false, none, none⟩ "escalate" sugEmpty 0
    (by decide) (by decide) (by decide) (by decide)

/-- C8: in every run of the pool over N databases with admission capacity M,
every reachable state has at most M active workers, and a terminal state
(nothing pending, nothing active) holds exactly N results however many
individual workers failed. -/
theorem c8_bounded_pool (M N : Nat) (t : PoolState)
    (h : PoolReach M (initPool N) t) :
    t.active ≤ M ∧ (t.pending = 0 → t.active = 0 → t.results.length = N) := by
  have hinv := poolReach_invariant h
  exact ⟨hinv.2, fun hp ha => by omega⟩

/-- Witness for C8: the concrete M = 2, N = 5 run reaches a terminal state
with exactly 5 results. -/
theorem c8_bounded_pool_witness :
    (⟨0, 0, [true, true, false, true, true]⟩ : PoolState).active ≤ 2
    ∧ ((⟨0, 0, [true, true, false, true, true]⟩ : PoolState).pending = 0 →
        (⟨0, 0, [true, true, false, true, true]⟩ : PoolState).active = 0 →
        (⟨0, 0, [true, true, false, true, true]⟩ : PoolState).results.length = 5) :=
  c8_bounded_pool 2 5 ⟨0, 0, [true, true, false, true, true]⟩ poolRunExample

/-- C9: when no validation step matches a problem metric by name (in
particular when the validation list is empty), Validate still returns a
result - the embedded Validate is total because the source validateStep stub
never returns an error - and that result has an empty metrics map, a NaN
improvement (the float64 quotient 0/0), and success false. -/
theorem c9_unmatched_validation_nan (sug : OptimizationSuggestion)
    (h : ∀ s ∈ sug.validation, findProblemMetric sug.problem.metrics s = none) :
    mongoValidate sug = ⟨sug.category, false, GoFloat.nan, []⟩ := by
  have hloop : ∀ steps : List String,
      (∀ s ∈ steps, findProblemMetric sug.problem.metrics s = none) →
      validateLoop sug.problem.metrics steps (GoFloat.fin 0) [] = (GoFloat.fin 0, []) := by
    intro steps
    induction steps with
    | nil => intro _; rfl
    | cons s rest ih =>
        intro hsteps
        have hs := hsteps s (List.mem_cons_self s rest)
        have hstep : validateLoop sug.problem.metrics (s :: rest) (GoFloat.fin 0) []
            = validateLoop sug.problem.metrics rest (GoFloat.fin 0) [] := by
          simp [validateLoop, validateStep, hs]
        rw [hstep]
        exact ih (fun x hx => hsteps x (List.mem_cons_of_mem s hx))
  simp [mongoValidate, hloop sug.validation h, GoFloat.div, GoFloat.blt]

/-- Witness for C9: one validation step that matches no problem metric. -/
theorem c9_unmatched_validation_nan_witness :
    mongoValidate ⟨"index", "low", 1, ⟨"", [⟨"x", 1, "", 0⟩], "", ""⟩, ⟨"", []⟩, ["latency"]⟩
      = ⟨"index", false, GoFloat.nan, []⟩ :=
  c9_unmatched_validation_nan
    ⟨"index", "low", 1, ⟨"", [⟨"x", 1, "", 0⟩], "", ""⟩, ⟨"", []⟩, ["latency"]⟩
    (by decide)

/-- Characterization of the Validate loop: the running total is the fold of
the per-step values over the matched steps, and - when the remaining steps
are duplicate-free and disjoint from the accumulated map keys - the map
grows by exactly one entry per matched step. -/
theorem validateLoop_char (pms : List AIMetric) (steps : List String) :
    ∀ (total : GoFloat) (ms : List (String × VMetric)),
      steps.Nodup → (∀ s ∈ steps, ms.any (fun kv => kv.1 == s) = false) →
      (validateLoop pms steps total ms).1 =
        (steps.filter (fun s => (findProblemMetric pms (validateStep s).name).isSome)).foldl
          (fun acc s => acc.add (perStepValue pms s)) total
      ∧ (validateLoop pms steps total ms).2.length =
        ms.length +
          (steps.filter (fun s => (findProblemMetric pms (validateStep s).name).isSome)).length := by
  induction steps with
  | nil => intro total ms _ _; exact ⟨rfl, by simp [validateLoop]⟩
  | cons s rest ih =>
      intro total ms hnodup hdisj
      rcases List.nodup_cons.mp hnodup with ⟨hnotmem, hnodup'⟩
      cases hm : findProblemMetric pms (validateStep s).name with
      | none =>
          have hrec := ih total ms hnodup' (fun x hx => hdisj x (List.mem_cons_of_mem s hx))
          constructor
          · rw [show (validateLoop pms (s :: rest) total ms) = validateLoop pms rest total ms
              by simp [validateLoop, hm]]
            rw [hrec.1]
            congr 1
            simp [List.filter_cons, hm]
          · rw [show (validateLoop pms (s :: rest) total ms) = validateLoop pms rest total ms
              by simp [validateLoop, hm]]
            rw [hrec.2]
            congr 2
            simp [List.filter_cons, hm]
      | some pm =>
          have hs : ms.any (fun kv => kv.1 == s) = false :=
            hdisj s (List.mem_cons_self s rest)
          have hins : mapInsert ms (validateStep s).name
              (⟨pm.value, (validateStep s).value, (validateStep s).unit, (validateStep s).threshold⟩ : VMetric)
              = ms ++ [((validateStep s).name,
                  (⟨pm.value, (validateStep s).value, (validateStep s).unit, (validateStep s).threshold⟩ : VMetric))] := by
            simp only [mapInsert, validateStep]
            rw [hs]
            simp
          have hstep : validateLoop pms (s :: rest) total ms =
              validateLoop pms rest (total.add (stepImprovement pm (validateStep s)))
                (ms ++ [((validateStep s).name,
                  (⟨pm.value, (validateStep s).value, (validateStep s).unit, (validateStep s).threshold⟩ : VMetric))]) := by
            rw [show validateLoop pms (s :: rest) total ms =
                validateLoop pms rest (total.add (stepImprovement pm (validateStep s)))
                  (mapInsert ms (validateStep s).name
                    (⟨pm.value, (validateStep s).value, (validateStep s).unit, (validateStep s).threshold⟩ : VMetric))
              from by simp [validateLoop, hm]]
            rw [hins]
          have hdisj' : ∀ x ∈ rest,
              (ms ++ [((validateStep s).name,
                (⟨pm.value, (validateStep s).value, (validateStep s).unit, (validateStep s).threshold⟩ : VMetric))]).any
                (fun kv => kv.1 == x) = false := by
            intro x hx
            rw [List.any_append]
            have h1 := hdisj x (List.mem_cons_of_mem s hx)
            have h2 : ((validateStep s).name == x) = false := by
              simp only [validateStep]
              exact beq_eq_false_iff_ne.mpr (fun hsx => hnotmem (hsx ▸ hx))
            simp [h1, h2]
          have hrec := ih (total.add (stepImprovement pm (validateStep s)))
            (ms ++ [((validateStep s).name,
              (⟨pm.value, (validateStep s).value, (validateStep s).unit, (validateStep s).threshold⟩ : VMetric))])
            hnodup' hdisj'
          constructor
          · rw [hstep, hrec.1]
            have hfilter : (s :: rest).filter
                (fun x => (findProblemMetric pms (validateStep x).name).isSome) =
                s :: rest.filter (fun x => (findProblemMetric pms (validateStep x).name).isSome) := by
              simp [List.filter_cons, hm]
            rw [hfilter]
            simp [List.foldl_cons, perStepValue, hm]
          · rw [hstep, hrec.2]
            have hfilter : (s :: rest).filter
                (fun x => (findProblemMetric pms (validateStep x).name).isSome) =
                s :: rest.filter (fun x => (findProblemMetric pms (validateStep x).name).isSome) := by
              simp [List.filter_cons, hm]
            rw [hfilter]
            simp only [List.length_append, List.length_cons, List.length_nil]
            omega

/-- C2 (amended): when the validation steps are duplicate-free, Validate's
improvement equals the arithmetic mean of the per-metric value
`(before - after) / before * 100` over exactly the matched metrics (metrics
on one side only excluded, not zero-filled), the metrics map has exactly one
entry per matched metric, and success holds exactly when the improvement is
strictly positive (a float64 comparison, false for NaN).  Without the
duplicate-free proviso the code divides the duplicate-counting total by the
number of distinct matched names, which is not the mean (see the
counterexample). -/
theorem c2_validate_mean_amended (sug : OptimizationSuggestion)
    (hnodup : sug.validation.Nodup) :
    (mongoValidate sug).improvement = specMeanImprovement sug
    ∧ (mongoValidate sug).success =
        GoFloat.blt (GoFloat.fin 0) (mongoValidate sug).improvement
    ∧ (mongoValidate sug).metrics.length = (specMatchedSteps sug).length := by
  have hchar := validateLoop_char sug.problem.metrics sug.validation (GoFloat.fin 0) []
    hnodup (by intro s _; rfl)
  refine ⟨?_, rfl, ?_⟩
  · simp only [mongoValidate, specMeanImprovement, specMatchedSteps]
    rw [hchar.1, hchar.2]
    simp
  · simp only [mongoValidate]
    rw [hchar.2]
    simp [specMatchedSteps]

/-- Counterexample to C2 as stated: on c2sug the per-metric value of the
single matched metric is 100, so the claimed arithmetic mean is 100, but
Validate accumulates the step improvement twice while the metrics map keeps
one entry, returning 200. -/
theorem c2_counterexample :
    (mongoValidate c2sug).improvement = GoFloat.fin 200
    ∧ specMeanImprovement c2sug = GoFloat.fin 100
    ∧ (mongoValidate c2sug).improvement ≠ specMeanImprovement c2sug := by
  have h1 : (mongoValidate c2sug).improvement = GoFloat.fin 200 := by
    simp only [mongoValidate, c2sug, validateLoop, validateStep, findProblemMetric,
      List.find?, mapInsert, stepImprovement, GoFloat.sub, GoFloat.neg, GoFloat.add,
      GoFloat.div, GoFloat.mul, List.any_cons, List.any_nil, List.length_cons,
      List.length_nil, List.map_cons, List.map_nil]
    norm_num
  have h2 : specMeanImprovement c2sug = GoFloat.fin 100 := by
    simp only [specMeanImprovement, specMatchedSteps, perStepValue, c2sug, validateStep,
      findProblemMetric, List.find?, stepImprovement, GoFloat.sub, GoFloat.neg,
      GoFloat.add, GoFloat.div, GoFloat.mul, List.filter, List.foldl, List.length_cons,
      List.length_nil]
    norm_num
  refine ⟨h1, h2, ?_⟩
  rw [h1, h2]
  intro h
  exact absurd (GoFloat.fin.inj h) (by norm_num)

/-- Witness for the amended C2 on the concrete duplicate-free suggestion. -/
theorem c2_validate_mean_amended_witness :
    (mongoValidate c2wsug).improvement = specMeanImprovement c2wsug
    ∧ (mongoValidate c2wsug).success =
        GoFloat.blt (GoFloat.fin 0) (mongoValidate c2wsug).improvement
    ∧ (mongoValidate c2wsug).metrics.length = (specMatchedSteps c2wsug).length :=
  c2_validate_mean_amended c2wsug (by decide)

/-! ## Apply helper lemmas -/

/-- mongoApply on an index-category suggestion is the index loop. -/
theorem mongoApply_index (db : String) (st : DbState) (sug : OptimizationSuggestion)
    (h : sug.category = "index") :
    mongoApply db st sug = applyIndexOps db st sug.solution.operations := by
  simp [mongoApply, h]

/-- Prefix lemma: when a prefix of the operation list succeeds, the loop
continues from the prefix's final state with the prefix's commands in front. -/
theorem applyIndexOps_append (db : String) (ops₁ : List IndexOperation) :
    ∀ (st st₁ : DbState) (cs : List Cmd),
      applyIndexOps db st ops₁ = (st₁, cs, none) →
      ∀ ops₂ : List IndexOperation,
        applyIndexOps db st (ops₁ ++ ops₂) =
          ((applyIndexOps db st₁ ops₂).1, cs ++ (applyIndexOps db st₁ ops₂).2.1,
            (applyIndexOps db st₁ ops₂).2.2) := by
  induction ops₁ with
  | nil =>
      intro st st₁ cs h ops₂
      simp only [applyIndexOps, Prod.mk.injEq] at h
      rcases h with ⟨h1, h2, -⟩
      subst h1 h2
      simp [applyIndexOps]
  | cons op rest ih =>
      intro st st₁ cs h ops₂
      simp only [List.cons_append, applyIndexOps] at h ⊢
      rcases hstep : applyOneIndexOp db st op with ⟨st', cs', e⟩
      rw [hstep] at h
      cases e with
      | some err => simp at h
      | none =>
          simp only at h ⊢
          rcases hrec : applyIndexOps db st' rest with ⟨st'', cs'', e''⟩
          rw [hrec] at h
          simp only [Prod.mk.injEq] at h
          rcases h with ⟨hst, hcs, he⟩
          subst hst he
          have hrec' : applyIndexOps db st' rest = (st'', cs'', none) := hrec
          rw [show rest.append ops₂ = rest ++ ops₂ from rfl, ih st' st'' cs'' hrec' ops₂]
          simp only
          rw [← hcs, List.append_assoc]

/-- indexExists only holds for an existing collection. -/
theorem collExists_of_indexExists {st : DbState} {c n : String}
    (h : indexExists st c n = true) : collExists st c = true := by
  unfold indexExists at h
  unfold collExists
  cases hf : st.findColl c with
  | none => rw [hf] at h; simp at h
  | some cs => rfl

/-- resolvedCheckName of a dropIndex operation is the operation name. -/
theorem resolvedCheckName_drop {op : IndexOperation} (h : op.action = "dropIndex") :
    resolvedCheckName op = op.name := by
  simp [resolvedCheckName, h]

/-- Loop step on a failing operation. -/
theorem applyIndexOps_cons_error (db : String) (st : DbState) (op : IndexOperation)
    (rest : List IndexOperation) (st' : DbState) (cs' : List Cmd) (e : OptError)
    (h : applyOneIndexOp db st op = (st', cs', some e)) :
    applyIndexOps db st (op :: rest) = (st', cs', some e) := by
  simp only [applyIndexOps]
  rw [h]

/-- Loop step on a succeeding operation. -/
theorem applyIndexOps_cons_ok (db : String) (st : DbState) (op : IndexOperation)
    (rest : List IndexOperation) (st' : DbState) (cs' : List Cmd)
    (h : applyOneIndexOp db st op = (st', cs', none)) :
    applyIndexOps db st (op :: rest) =
      ((applyIndexOps db st' rest).1, cs' ++ (applyIndexOps db st' rest).2.1,
        (applyIndexOps db st' rest).2.2) := by
  simp only [applyIndexOps]
  rw [h]

/-- Pre-apply validation outcome: missing collection. -/
theorem applyOneIndexOp_collMissing (db : String) (st : DbState) (op : IndexOperation)
    (h : collExists st op.collection = false) :
    applyOneIndexOp db st op = (st, [], some (.plain (collMissingMsg op.collection db))) := by
  simp [applyOneIndexOp, h]

/-- Pre-apply validation outcome: createIndex with an existing resolved
name. -/
theorem applyOneIndexOp_createExists (db : String) (st : DbState) (op : IndexOperation)
    (hact : op.action = "createIndex") (hcoll : collExists st op.collection = true)
    (hname : resolvedCheckName op ≠ "")
    (hex : indexExists st op.collection (resolvedCheckName op) = true) :
    applyOneIndexOp db st op =
      (st, [], some (.plain (idxExistsMsg (resolvedCheckName op) op.collection))) := by
  simp [applyOneIndexOp, hcoll, hname, hact, hex]

/-- Pre-apply validation outcome: dropIndex naming a missing index. -/
theorem applyOneIndexOp_dropMissing (db : String) (st : DbState) (op : IndexOperation)
    (hact : op.action = "dropIndex") (hcoll : collExists st op.collection = true)
    (hname : op.name ≠ "") (hex : indexExists st op.collection op.name = false) :
    applyOneIndexOp db st op =
      (st, [], some (.plain (idxMissingMsg op.name op.collection))) := by
  have hr := resolvedCheckName_drop hact
  simp [applyOneIndexOp, hcoll, hr, hname, hact, hex]

/-- Pre-apply validation outcome: dropIndex without a usable name. -/
theorem applyOneIndexOp_dropNoName (db : String) (st : DbState) (op : IndexOperation)
    (hact : op.action = "dropIndex") (hcoll : collExists st op.collection = true)
    (hname : op.name = "") :
    applyOneIndexOp db st op =
      (st, [],
        some (.plain "pre-apply validation failed: index name is required for dropIndex")) := by
  have hr := resolvedCheckName_drop hact
  simp [applyOneIndexOp, hcoll, hr, hname, hact]

/-- C3 (amended): when the loop of an index-category Apply reaches an
operation whose target collection does not exist, Apply stops with an error
- but a plain formatted error whose message reports the pre-apply validation
failure, not a typed OptimizerError of kind Validation - and no native
command is executed for that operation (the issued commands are exactly the
prefix's). -/
theorem c3_missing_collection_amended (db : String) (st : DbState)
    (ops₁ : List IndexOperation) (op : IndexOperation) (ops₂ : List IndexOperation)
    (st₁ : DbState) (cs : List Cmd) (sug : OptimizationSuggestion)
    (hcat : sug.category = "index")
    (hops : sug.solution.operations = ops₁ ++ op :: ops₂)
    (hpre : applyIndexOps db st ops₁ = (st₁, cs, none))
    (hmiss : collExists st₁ op.collection = false) :
    mongoApply db st sug = (st₁, cs, some (.plain (collMissingMsg op.collection db)))
    ∧ isOptimizerErrorOfKind (OptError.plain (collMissingMsg op.collection db))
        ErrorType.validation = false := by
  constructor
  · rw [mongoApply_index db st sug hcat, hops,
      applyIndexOps_append db ops₁ st st₁ cs hpre (op :: ops₂),
      applyIndexOps_cons_error db st₁ op ops₂ st₁ [] _
        (applyOneIndexOp_collMissing db st₁ op hmiss)]
    simp
  · rfl

/-- Counterexample to C3 as stated: Apply fails on the missing collection
and issues no command, but the returned error is a plain error - the
kind-Validation check that the claim asserts is false for it. -/
theorem c3_counterexample :
    (mongoApply "appdb" c3cst c3csug).2.2 =
      some (OptError.plain (collMissingMsg "ghost" "appdb"))
    ∧ isOptimizerErrorOfKind (OptError.plain (collMissingMsg "ghost" "appdb"))
        ErrorType.validation = false
    ∧ (mongoApply "appdb" c3cst c3csug).2.1 = [] := by
  refine ⟨?_, rfl, ?_⟩ <;> decide

/-- Witness for the amended C3 at a concrete input. -/
theorem c3_missing_collection_amended_witness :
    mongoApply "proddb" c3wst c3wsug =
      (c3wst, [], some (.plain (collMissingMsg "absent" "proddb")))
    ∧ isOptimizerErrorOfKind (OptError.plain (collMissingMsg "absent" "proddb"))
        ErrorType.validation = false :=
  c3_missing_collection_amended "proddb" c3wst [] c3wop [] c3wst [] c3wsug
    rfl rfl rfl (by decide)

/-- C4: for an index operation the loop reaches after a successful prefix,
(1) a createIndex whose resolved name (operation name overridden by a
non-empty options name) already exists on the collection makes Apply stop
with the pre-apply validation error and no command is executed for the
operation; (2) a dropIndex whose named index does not exist makes Apply stop
before execution (state and issued commands stay those of the prefix, with
an error present); (3) a dropIndex without a usable name on an existing
collection is itself a pre-apply validation failure, again before any
execution. -/
theorem c4_index_name_prechecks (db : String) (st : DbState)
    (ops₁ : List IndexOperation) (op : IndexOperation) (ops₂ : List IndexOperation)
    (st₁ : DbState) (cs : List Cmd)
    (hpre : applyIndexOps db st ops₁ = (st₁, cs, none)) :
    (op.action = "createIndex" → resolvedCheckName op ≠ "" →
      indexExists st₁ op.collection (resolvedCheckName op) = true →
      applyIndexOps db st (ops₁ ++ op :: ops₂) =
        (st₁, cs, some (.plain (idxExistsMsg (resolvedCheckName op) op.collection))))
    ∧ (op.action = "dropIndex" → indexExists st₁ op.collection op.name = false →
        (applyIndexOps db st (ops₁ ++ op :: ops₂)).1 = st₁
        ∧ (applyIndexOps db st (ops₁ ++ op :: ops₂)).2.1 = cs
        ∧ (applyIndexOps db st (ops₁ ++ op :: ops₂)).2.2.isSome = true)
    ∧ (op.action = "dropIndex" → op.name = "" → collExists st₁ op.collection = true →
        applyIndexOps db st (ops₁ ++ op :: ops₂) =
          (st₁, cs,
            some (.plain "pre-apply validation failed: index name is required for dropIndex"))) := by
  have happ := applyIndexOps_append db ops₁ st st₁ cs hpre (op :: ops₂)
  refine ⟨fun hact hname hex => ?_, fun hact hex => ?_, fun hact hname hcoll => ?_⟩
  · rw [happ,
      applyIndexOps_cons_error db st₁ op ops₂ st₁ [] _
        (applyOneIndexOp_createExists db st₁ op hact (collExists_of_indexExists hex) hname hex)]
    simp
  · cases hcoll : collExists st₁ op.collection with
    | false =>
        rw [happ, applyIndexOps_cons_error db st₁ op ops₂ st₁ [] _
          (applyOneIndexOp_collMissing db st₁ op hcoll)]
        simp
    | true =>
        by_cases hname : op.name = ""
        · rw [happ, applyIndexOps_cons_error db st₁ op ops₂ st₁ [] _
            (applyOneIndexOp_dropNoName db st₁ op hact hcoll hname)]
          simp
        · rw [happ, applyIndexOps_cons_error db st₁ op ops₂ st₁ [] _
            (applyOneIndexOp_dropMissing db st₁ op hact hcoll hname hex)]
          simp
  · rw [happ, applyIndexOps_cons_error db st₁ op ops₂ st₁ [] _
      (applyOneIndexOp_dropNoName db st₁ op hact hcoll hname)]
    simp

/-- Witness for C4: the createIndex duplicate-name pre-check fires before
any command execution. -/
theorem c4_index_name_prechecks_witness :
    applyIndexOps "proddb" c4wst ([] ++ c4wop :: []) =
      (c4wst, [], some (.plain (idxExistsMsg (resolvedCheckName c4wop) c4wop.collection))) :=
  (c4_index_name_prechecks "proddb" c4wst [] c4wop [] c4wst [] rfl).1
    rfl (by decide) (by decide)

/-! ## Rollback helper lemmas -/

/-- Inversion of a createIndex operation with usable data. -/
theorem invertOp_create {op : IndexOperation} (hact : op.action = "createIndex")
    (hcol : op.collection ≠ "") (hname : rollbackDropName op ≠ "") :
    invertOp op = .cmd (.dropIndexes op.collection (rollbackDropName op)) := by
  have b1 : (op.collection == "") = false := beq_eq_false_iff_ne.mpr hcol
  have b2 : (rollbackDropName op == "") = false := beq_eq_false_iff_ne.mpr hname
  simp [invertOp, hact, b1, b2]

/-- Inversion of a dropIndex operation with usable data. -/
theorem invertOp_drop {op : IndexOperation} (hact : op.action = "dropIndex")
    (hcol : op.collection ≠ "") (hkeys : op.keys ≠ []) :
    invertOp op = .cmd (.createIndexes op.collection
      ⟨op.keys, if op.name ≠ "" then some op.name else none,
        op.options.unique, op.options.sparse, op.options.expireAfterSeconds⟩) := by
  have b1 : (op.collection == "") = false := beq_eq_false_iff_ne.mpr hcol
  have b2 : op.keys.isEmpty = false := by
    cases hk : op.keys with
    | nil => exact absurd hk hkeys
    | cons a l => rfl
  simp [invertOp, hact, b1, b2]

/-- Unsupported actions are skipped by the Rollback switch. -/
theorem invertOp_skip {op : IndexOperation} (h1 : op.action ≠ "createIndex")
    (h2 : op.action ≠ "dropIndex") : invertOp op = .skip := by
  have b1 : (op.action == "createIndex") = false := beq_eq_false_iff_ne.mpr h1
  have b2 : (op.action == "dropIndex") = false := beq_eq_false_iff_ne.mpr h2
  simp [invertOp, b1, b2]

/-- Rollback loop step: skipped operation. -/
theorem rollbackOps_cons_skip (st : DbState) (op : IndexOperation)
    (rest : List IndexOperation) (h : invertOp op = .skip) :
    rollbackOps st (op :: rest) = rollbackOps st rest := by
  simp only [rollbackOps]
  rw [h]

/-- Rollback loop step: inversion failure. -/
theorem rollbackOps_cons_failed (st : DbState) (op : IndexOperation)
    (rest : List IndexOperation) (e : OptError) (h : invertOp op = .failed e) :
    rollbackOps st (op :: rest) = (st, [], some e) := by
  simp only [rollbackOps]
  rw [h]

/-- Rollback loop step: execution failure of the inverted command. -/
theorem rollbackOps_cons_cmd_error (st : DbState) (op : IndexOperation)
    (rest : List IndexOperation) (c : Cmd) (m : String)
    (hi : invertOp op = .cmd c) (hr : runCommand st c = .error m) :
    rollbackOps st (op :: rest) =
      (st, [c], some (.optimizer .rollback "Failed to execute rollback command" (some c))) := by
  simp only [rollbackOps, hi, hr]

/-- Rollback loop step: successful execution of the inverted command. -/
theorem rollbackOps_cons_cmd_ok (st : DbState) (op : IndexOperation)
    (rest : List IndexOperation) (c : Cmd) (st' : DbState)
    (hi : invertOp op = .cmd c) (hr : runCommand st c = .ok st') :
    rollbackOps st (op :: rest) =
      ((rollbackOps st' rest).1, c :: (rollbackOps st' rest).2.1,
        (rollbackOps st' rest).2.2) := by
  simp only [rollbackOps, hi, hr]

/-- mongoRollback on a suggestion with operations runs the loop. -/
theorem mongoRollback_ops (st : DbState) (sug : OptimizationSuggestion)
    (h : sug.solution.operations ≠ []) :
    mongoRollback st sug = rollbackOps st sug.solution.operations := by
  have : sug.solution.operations.isEmpty = false := by
    cases hk : sug.solution.operations with
    | nil => exact absurd hk h
    | cons a l => rfl
  simp [mongoRollback, this]

/-- Prefix lemma for the rollback loop. -/
theorem rollbackOps_append (ops₁ : List IndexOperation) :
    ∀ (st st₁ : DbState) (cs : List Cmd),
      rollbackOps st ops₁ = (st₁, cs, none) →
      ∀ ops₂ : List IndexOperation,
        rollbackOps st (ops₁ ++ ops₂) =
          ((rollbackOps st₁ ops₂).1, cs ++ (rollbackOps st₁ ops₂).2.1,
            (rollbackOps st₁ ops₂).2.2) := by
  induction ops₁ with
  | nil =>
      intro st st₁ cs h ops₂
      simp only [rollbackOps, Prod.mk.injEq] at h
      rcases h with ⟨h1, h2, -⟩
      subst h1 h2
      simp [rollbackOps]
  | cons op rest ih =>
      intro st st₁ cs h ops₂
      simp only [List.cons_append] at h ⊢
      cases hi : invertOp op with
      | skip =>
          rw [rollbackOps_cons_skip st op rest hi] at h
          rw [rollbackOps_cons_skip st op (rest ++ ops₂) hi]
          exact ih st st₁ cs h ops₂
      | failed e =>
          rw [rollbackOps_cons_failed st op rest e hi] at h
          simp at h
      | cmd c =>
          cases hr : runCommand st c with
          | error m =>
              rw [rollbackOps_cons_cmd_error st op rest c m hi hr] at h
              simp at h
          | ok st' =>
              rw [rollbackOps_cons_cmd_ok st op rest c st' hi hr] at h
              rcases hrec : rollbackOps st' rest with ⟨st'', cs'', e''⟩
              rw [hrec] at h
              simp only [Prod.mk.injEq] at h
              rcases h with ⟨hst, hcs, he⟩
              subst hst he
              have hrec' : rollbackOps st' rest = (st'', cs'', none) := hrec
              rw [rollbackOps_cons_cmd_ok st op (rest ++ ops₂) c st' hi hr,
                ih st' st'' cs'' hrec' ops₂]
              simp only
              rw [← hcs]
              simp [List.append_assoc]

/-- C6: Rollback handles an empty operation list as a success with no
native calls; it inverts createIndex to dropIndexes under the resolved name
and dropIndex to createIndexes reconstructing keys, name and the recorded
unique / sparse / expireAfterSeconds options; and it walks the operations
in forward list order - after a successfully rolled-back prefix, the first
operation whose inverted command fails aborts the loop, returning a typed
error of kind rollback carrying the failing command, with exactly the
prefix commands plus the failing command issued and the remaining
operations untouched. -/
theorem c6_rollback_forward_inversion :
    (∀ (st : DbState) (sug : OptimizationSuggestion),
      sug.solution.operations = [] → mongoRollback st sug = (st, [], none))
    ∧ (∀ op : IndexOperation, op.action = "createIndex" → op.collection ≠ "" →
        rollbackDropName op ≠ "" →
        invertOp op = .cmd (.dropIndexes op.collection (rollbackDropName op)))
    ∧ (∀ op : IndexOperation, op.action = "dropIndex" → op.collection ≠ "" →
        op.keys ≠ [] →
        invertOp op = .cmd (.createIndexes op.collection
          ⟨op.keys, if op.name ≠ "" then some op.name else none,
            op.options.unique, op.options.sparse, op.options.expireAfterSeconds⟩))
    ∧ (∀ (st st₁ : DbState) (sug : OptimizationSuggestion)
        (ops₁ : List IndexOperation) (op : IndexOperation) (ops₂ : List IndexOperation)
        (c : Cmd) (cs : List Cmd) (m : String),
        sug.solution.operations = ops₁ ++ op :: ops₂ →
        rollbackOps st ops₁ = (st₁, cs, none) →
        invertOp op = .cmd c →
        runCommand st₁ c = .error m →
        mongoRollback st sug =
          (st₁, cs ++ [c],
            some (.optimizer .rollback "Failed to execute rollback command" (some c)))) := by
  refine ⟨fun st sug h => by simp [mongoRollback, h],
    fun op hact hcol hname => invertOp_create hact hcol hname,
    fun op hact hcol hkeys => invertOp_drop hact hcol hkeys,
    fun st st₁ sug ops₁ op ops₂ c cs m hops hpre hi hr => ?_⟩
  have hne : sug.solution.operations ≠ [] := by
    rw [hops]
    exact List.append_ne_nil_of_right_ne_nil ops₁ (List.cons_ne_nil op ops₂)
  rw [mongoRollback_ops st sug hne, hops,
    rollbackOps_append ops₁ st st₁ cs hpre (op :: ops₂),
    rollbackOps_cons_cmd_error st₁ op ops₂ c m hi hr]

/-- Witness for C6: the forward walk drops idx1, then aborts on the failing
drop of idx2 with a rollback-kind error carrying that command. -/
theorem c6_rollback_forward_inversion_witness :
    mongoRollback c6wst c6wsug =
      (⟨[⟨"metrics", []⟩]⟩, [.dropIndexes "metrics" "idx1", .dropIndexes "metrics" "idx2"],
        some (.optimizer .rollback "Failed to execute rollback command"
          (some (.dropIndexes "metrics" "idx2")))) :=
  c6_rollback_forward_inversion.2.2.2 c6wst ⟨[⟨"metrics", []⟩]⟩ c6wsug
    [c6wop1] c6wop2 [] (.dropIndexes "metrics" "idx2") [.dropIndexes "metrics" "idx1"]
    "index not found" rfl (by decide) (by decide) rfl

/-- C10: operations whose action is neither createIndex nor dropIndex are
silently skipped by Rollback (the loop continues with the next operation),
and a rollback over only unsupported actions succeeds while issuing no
native commands. -/
theorem c10_rollback_skips_unsupported :
    (∀ (st : DbState) (op : IndexOperation) (rest : List IndexOperation),
      op.action ≠ "createIndex" → op.action ≠ "dropIndex" →
      rollbackOps st (op :: rest) = rollbackOps st rest)
    ∧ (∀ (st : DbState) (sug : OptimizationSuggestion),
        (∀ op ∈ sug.solution.operations,
          op.action ≠ "createIndex" ∧ op.action ≠ "dropIndex") →
        mongoRollback st sug = (st, [], none)) := by
  constructor
  · intro st op rest h1 h2
    exact rollbackOps_cons_skip st op rest (invertOp_skip h1 h2)
  · intro st sug h
    have hloop : ∀ (ops : List IndexOperation) (st' : DbState),
        (∀ op ∈ ops, op.action ≠ "createIndex" ∧ op.action ≠ "dropIndex") →
        rollbackOps st' ops = (st', [], none) := by
      intro ops
      induction ops with
      | nil => intro st' _; rfl
      | cons op rest ih =>
          intro st' hops
          have h1 := hops op (List.mem_cons_self op rest)
          rw [rollbackOps_cons_skip st' op rest (invertOp_skip h1.1 h1.2)]
          exact ih st' (fun x hx => hops x (List.mem_cons_of_mem op hx))
    cases hops : sug.solution.operations with
    | nil => simp [mongoRollback, hops]
    | cons op rest =>
        rw [mongoRollback_ops st sug (by rw [hops]; exact List.cons_ne_nil op rest), hops]
        exact hloop (op :: rest) st (by rw [← hops]; exact h)

/-- Witness for C10 on a concrete database and all-unsupported suggestion. -/
theorem c10_rollback_skips_unsupported_witness :
    mongoRollback ⟨[⟨"users", []⟩]⟩ c10wsug = (⟨[⟨"users", []⟩]⟩, [], none) :=
  c10_rollback_skips_unsupported.2 ⟨[⟨"users", []⟩]⟩ c10wsug (by decide)

/-! ## State-restoration lemmas for the round-trip claim -/

/-- Lookup after updating the first matching collection. -/
theorem find?_updateFirstColl (l : List CollectionState) (c : String) (ix : List IndexSpec) :
    (updateFirstColl l c ix).find? (fun cs => cs.name == c) =
      (l.find? (fun cs => cs.name == c)).map (fun cs => { cs with indexes := ix }) := by
  induction l with
  | nil => rfl
  | cons cs rest ih =>
      cases hb : (cs.name == c) with
      | true =>
          simp only [updateFirstColl, hb, if_pos]
          rw [List.find?_cons_of_pos _ (by simpa using hb),
            List.find?_cons_of_pos _ (by simpa using hb)]
          rfl
      | false =>
          simp only [updateFirstColl, hb, if_neg, Bool.false_eq_true, not_false_iff]
          rw [List.find?_cons_of_neg _ (by simp [hb]),
            List.find?_cons_of_neg _ (by simp [hb])]
          exact ih

/-- Updating the same collection twice keeps only the second update. -/
theorem updateFirstColl_updateFirstColl (l : List CollectionState) (c : String)
    (ix₁ ix₂ : List IndexSpec) :
    updateFirstColl (updateFirstColl l c ix₁) c ix₂ = updateFirstColl l c ix₂ := by
  induction l with
  | nil => rfl
  | cons cs rest ih =>
      cases hb : (cs.name == c) with
      | true => simp [updateFirstColl, hb]
      | false => simp [updateFirstColl, hb, ih]

/-- Updating the first matching collection with its own index list is the
identity. -/
theorem updateFirstColl_self (l : List CollectionState) (c : String)
    (cs₀ : CollectionState) (h : l.find? (fun cs => cs.name == c) = some cs₀) :
    updateFirstColl l c cs₀.indexes = l := by
  induction l with
  | nil => simp at h
  | cons cs rest ih =>
      cases hb : (cs.name == c) with
      | true =>
          rw [List.find?_cons_of_pos _ (by simpa using hb)] at h
          injection h with h
          subst h
          simp [updateFirstColl, hb]
      | false =>
          rw [List.find?_cons_of_neg _ (by simp [hb])] at h
          simp [updateFirstColl, hb, ih h]

/-- resolvedCheckName of a createIndex operation coincides with the name
Rollback resolves for the inverse drop. -/
theorem resolvedCheckName_create {op : IndexOperation} (h : op.action = "createIndex") :
    resolvedCheckName op = rollbackDropName op := by
  simp [resolvedCheckName, rollbackDropName, h]

/-- Successful named createIndex step: pre-checks pass, the server appends
the index, and post-verification finds it. -/
theorem applyOneIndexOp_createOk (db : String) (st : DbState) (op : IndexOperation)
    (cs₀ : CollectionState)
    (hact : op.action = "createIndex") (hcol : op.collection ≠ "") (hkeys : op.keys ≠ [])
    (hname : resolvedCheckName op ≠ "")
    (hfind : st.findColl op.collection = some cs₀)
    (hfree : cs₀.indexes.any (fun i => i.name == resolvedCheckName op) = false) :
    applyOneIndexOp db st op =
      (⟨updateFirstColl st.collections op.collection
          (cs₀.indexes ++ [⟨resolvedCheckName op, op.keys, op.options.unique,
            op.options.sparse, op.options.expireAfterSeconds⟩])⟩,
        [Cmd.createIndexes op.collection
          ⟨op.keys, some (resolvedCheckName op), op.options.unique, op.options.sparse,
            op.options.expireAfterSeconds⟩],
        none) := by
  have hcoll : collExists st op.collection = true := by simp [collExists, hfind]
  have hex : indexExists st op.collection (resolvedCheckName op) = false := by
    simp only [indexExists, hfind]
    exact hfree
  have hg1 : (op.collection == "") = false := beq_eq_false_iff_ne.mpr hcol
  have hg2 : op.keys.isEmpty = false := by
    cases hk : op.keys with
    | nil => exact absurd hk hkeys
    | cons a l => rfl
  have hfindnone : cs₀.indexes.find?
      (fun i => i.name == (specOfDoc ⟨op.keys, some (resolvedCheckName op),
        op.options.unique, op.options.sparse, op.options.expireAfterSeconds⟩).name) = none := by
    rw [List.find?_eq_none]
    intro x hx
    have := List.any_eq_false.mp hfree x hx
    simpa [specOfDoc, IndexDoc.resolveName] using this
  have hrun : runCommand st (Cmd.createIndexes op.collection
      ⟨op.keys, some (resolvedCheckName op), op.options.unique, op.options.sparse,
        op.options.expireAfterSeconds⟩) =
      .ok ⟨updateFirstColl st.collections op.collection
        (cs₀.indexes ++ [⟨resolvedCheckName op, op.keys, op.options.unique,
          op.options.sparse, op.options.expireAfterSeconds⟩])⟩ := by
    simp only [runCommand, hfind, hfindnone]
    rfl
  have hafter : indexExists
      (⟨updateFirstColl st.collections op.collection
        (cs₀.indexes ++ [⟨resolvedCheckName op, op.keys, op.options.unique,
          op.options.sparse, op.options.expireAfterSeconds⟩])⟩ : DbState)
      op.collection (resolvedCheckName op) = true := by
    simp only [indexExists, DbState.findColl, find?_updateFirstColl]
    have hfind' : st.collections.find? (fun cs => cs.name == op.collection) = some cs₀ := hfind
    rw [hfind']
    simp [List.any_append]
  simp only [applyOneIndexOp, hcoll, Bool.true_eq_false, if_false, hname, if_true,
    buildAndRun, hact, postVerify]
  simp [hex, hg1, hg2, hrun, hafter, hname]

/-- Successful dropIndexes execution on an existing index. -/
theorem runCommand_drop_ok (st : DbState) (coll n : String) (cs₀ : CollectionState)
    (hfind : st.findColl coll = some cs₀)
    (hex : cs₀.indexes.any (fun i => i.name == n) = true) :
    runCommand st (.dropIndexes coll n) =
      .ok ⟨updateFirstColl st.collections coll
        (cs₀.indexes.filter (fun i => !(i.name == n)))⟩ := by
  simp only [runCommand, hfind, hex]
  rfl

/-- C5 (amended): for a createIndex operation with a valid non-empty key
specification, a non-empty resolved index name, an existing target
collection, and no pre-existing index under that name (that is, an Apply
that succeeds), Apply followed immediately by Rollback on the same
single-operation suggestion errors in neither call and restores the
database state - in particular index existence - exactly (sequential model:
no concurrent mutation).  Without a resolved name the claim fails: Apply
creates a server-named index that Rollback cannot name (see the
counterexample). -/
theorem c5_roundtrip_amended (db : String) (st : DbState) (op : IndexOperation)
    (cs₀ : CollectionState)
    (hact : op.action = "createIndex") (hcol : op.collection ≠ "") (hkeys : op.keys ≠ [])
    (hname : resolvedCheckName op ≠ "")
    (hfind : st.findColl op.collection = some cs₀)
    (hfree : cs₀.indexes.any (fun i => i.name == resolvedCheckName op) = false) :
    (mongoApply db st (singleOpSuggestion op)).2.2 = none
    ∧ (mongoRollback (mongoApply db st (singleOpSuggestion op)).1
        (singleOpSuggestion op)).2.2 = none
    ∧ (mongoRollback (mongoApply db st (singleOpSuggestion op)).1
        (singleOpSuggestion op)).1 = st := by
  have hstep := applyOneIndexOp_createOk db st op cs₀ hact hcol hkeys hname hfind hfree
  have happly : mongoApply db st (singleOpSuggestion op) =
      (⟨updateFirstColl st.collections op.collection
          (cs₀.indexes ++ [⟨resolvedCheckName op, op.keys, op.options.unique,
            op.options.sparse, op.options.expireAfterSeconds⟩])⟩,
        [Cmd.createIndexes op.collection
          ⟨op.keys, some (resolvedCheckName op), op.options.unique, op.options.sparse,
            op.options.expireAfterSeconds⟩],
        none) := by
    rw [mongoApply_index db st (singleOpSuggestion op) rfl]
    show applyIndexOps db st [op] = _
    rw [applyIndexOps_cons_ok db st op [] _ _ hstep]
    simp [applyIndexOps]
  have hdropname : rollbackDropName op ≠ "" := by
    rw [← resolvedCheckName_create hact]
    exact hname
  have hinv := invertOp_create hact hcol hdropname
  have hfind' : (⟨updateFirstColl st.collections op.collection
      (cs₀.indexes ++ [⟨resolvedCheckName op, op.keys, op.options.unique,
        op.options.sparse, op.options.expireAfterSeconds⟩])⟩ : DbState).findColl
      op.collection = some { cs₀ with indexes := cs₀.indexes ++
        [⟨resolvedCheckName op, op.keys, op.options.unique,
          op.options.sparse, op.options.expireAfterSeconds⟩] } := by
    show (updateFirstColl st.collections op.collection _).find? _ = _
    rw [find?_updateFirstColl]
    have hfind'' : st.collections.find? (fun cs => cs.name == op.collection) = some cs₀ := hfind
    rw [hfind'']
    rfl
  have hany : ({ cs₀ with indexes := cs₀.indexes ++
      [⟨resolvedCheckName op, op.keys, op.options.unique,
        op.options.sparse, op.options.expireAfterSeconds⟩] } : CollectionState).indexes.any
      (fun i => i.name == rollbackDropName op) = true := by
    rw [← resolvedCheckName_create hact]
    simp [List.any_append]
  have hfilter : ({ cs₀ with indexes := cs₀.indexes ++
      [⟨resolvedCheckName op, op.keys, op.options.unique,
        op.options.sparse, op.options.expireAfterSeconds⟩] } : CollectionState).indexes.filter
      (fun i => !(i.name == rollbackDropName op)) = cs₀.indexes := by
    rw [← resolvedCheckName_create hact]
    simp only [List.filter_append]
    have h1 : cs₀.indexes.filter (fun i => !(i.name == resolvedCheckName op)) = cs₀.indexes :=
      List.filter_eq_self.mpr (fun x hx => by
        simp [List.any_eq_false.mp hfree x hx])
    have h2 : ([⟨resolvedCheckName op, op.keys, op.options.unique,
        op.options.sparse, op.options.expireAfterSeconds⟩] : List IndexSpec).filter
        (fun i => !(i.name == resolvedCheckName op)) = [] := by
      simp
    rw [h1, h2, List.append_nil]
  have hrun := runCommand_drop_ok
    (⟨updateFirstColl st.collections op.collection
      (cs₀.indexes ++ [⟨resolvedCheckName op, op.keys, op.options.unique,
        op.options.sparse, op.options.expireAfterSeconds⟩])⟩ : DbState)
    op.collection (rollbackDropName op) _ hfind' hany
  rw [hfilter] at hrun
  have hback : updateFirstColl
      (updateFirstColl st.collections op.collection
        (cs₀.indexes ++ [⟨resolvedCheckName op, op.keys, op.options.unique,
          op.options.sparse, op.options.expireAfterSeconds⟩]))
      op.collection cs₀.indexes = st.collections := by
    rw [updateFirstColl_updateFirstColl]
    exact updateFirstColl_self st.collections op.collection cs₀ hfind
  have hrollback : mongoRollback (mongoApply db st (singleOpSuggestion op)).1
      (singleOpSuggestion op) = (st, [.dropIndexes op.collection (rollbackDropName op)], none) := by
    rw [happly]
    show mongoRollback _ (singleOpSuggestion op) = _
    rw [mongoRollback_ops _ (singleOpSuggestion op) (by simp [singleOpSuggestion])]
    show rollbackOps _ [op] = _
    rw [rollbackOps_cons_cmd_ok _ op [] _ _ hinv hrun]
    simp only [rollbackOps]
    rw [show (⟨updateFirstColl
        (updateFirstColl st.collections op.collection
          (cs₀.indexes ++ [⟨resolvedCheckName op, op.keys, op.options.unique,
            op.options.sparse, op.options.expireAfterSeconds⟩]))
        op.collection cs₀.indexes⟩ : DbState) = st from by rw [hback]]
  rw [hrollback, happly]
  exact ⟨rfl, rfl, rfl⟩

/-- Counterexample to C5 as stated: Apply succeeds (creating the
server-named index age_1), but Rollback errors - it cannot resolve a name
to drop - and the index set afterwards differs from the one before Apply:
age_1 exists after the round trip but not before. -/
theorem c5_counterexample :
    (mongoApply "db1" c5cst (singleOpSuggestion c5cop)).2.2 = none
    ∧ (mongoRollback (mongoApply "db1" c5cst (singleOpSuggestion c5cop)).1
        (singleOpSuggestion c5cop)).2.2.isSome = true
    ∧ indexExists (mongoRollback (mongoApply "db1" c5cst (singleOpSuggestion c5cop)).1
        (singleOpSuggestion c5cop)).1 "users" "age_1" = true
    ∧ indexExists c5cst "users" "age_1" = false := by
  refine ⟨?_, ?_, ?_, ?_⟩ <;> decide

/-- Witness for the amended C5: Apply then Rollback restores the state. -/
theorem c5_roundtrip_amended_witness :
    (mongoApply "db2" c5wst (singleOpSuggestion c5wop)).2.2 = none
    ∧ (mongoRollback (mongoApply "db2" c5wst (singleOpSuggestion c5wop)).1
        (singleOpSuggestion c5wop)).2.2 = none
    ∧ (mongoRollback (mongoApply "db2" c5wst (singleOpSuggestion c5wop)).1
        (singleOpSuggestion c5wop)).1 = c5wst :=
  c5_roundtrip_amended "db2" c5wst c5wop ⟨"orders", [⟨"old_idx", [("o", 1)], false, false, none⟩]⟩
    rfl (by decide) (by decide) (by decide) rfl (by decide)
